import Mathlib

/-!
Shallow embedding of the ZIP-backed I/O provider of
lib/wzmaplib/plugins/ZipIOProvider/src/ZipIOProvider.cpp.

Entry names are modelled as `List Char` (C++ std::string), file contents as
`List Nat` (byte buffers).  The libzip backend is modelled by an explicit
list of archive entries; the backend calls used by the provider
(zip_name_locate, zip_stat_index, zip_fread, zip_file_add, ...) are modelled
as pure functions over that list.
-/

/-- Lexicographic strict order on strings (std::string operator<, used by
std::sort in the directory-cache builder). -/
def charListLt : List Char → List Char → Bool
  | [], [] => false
  | [], _ :: _ => true
  | _ :: _, [] => false
  | a :: as, b :: bs => if a < b then true else if b < a then false else charListLt as bs

/-- Insert into a sorted list of strings (helper for the model of std::sort). -/
def insertSorted (x : List Char) : List (List Char) → List (List Char)
  | [] => [x]
  | y :: t => if charListLt x y then x :: y :: t else y :: insertSorted x t

/-- Sort a list of strings by `charListLt` (model of std::sort; the cache holds
pairwise-distinct strings, so any comparison sort produces the same list). -/
def sortStrings : List (List Char) → List (List Char)
  | [] => []
  | x :: t => insertSorted x (sortStrings t)

/-- Substring containment, std::string::find(pat) != npos (used for the ".."
directory-traversal check). -/
def listHasInfix : List Char → List Char → Bool
  | [], pat => pat.isEmpty
  | s@(_ :: t), pat => pat.isPrefixOf s || listHasInfix t pat

/-- Index of the first occurrence of a character (helper for `strFindFrom`). -/
def charIdxOf : List Char → Char → Option Nat
  | [], _ => none
  | a :: t, c =>
    if a = c then some 0
    else
      match charIdxOf t c with
      | some i => some (i + 1)
      | none => none

/-- Model of std::string::find(c, start): index of the first occurrence of `c`
at or after position `start`. -/
def strFindFrom (s : List Char) (c : Char) (start : Nat) : Option Nat :=
  match charIdxOf (s.drop start) c with
  | some i => some (start + i)
  | none => none

/-- Model of std::string::rfind(c): index of the last occurrence of `c`. -/
def strRFind : List Char → Char → Option Nat
  | [], _ => none
  | a :: t, c =>
    match strRFind t c with
    | some i => some (i + 1)
    | none => if a = c then some 0 else none

/-- Model of std::replace over a string: replace every `a` by `b`. -/
def replaceChar (s : List Char) (a b : Char) : List Char :=
  s.map (fun c => if c = a then b else c)

/-- Remove all trailing slash characters (the trailing-slash trimming loop of
the directory-cache builder). -/
def stripTrailingSlashes (s : List Char) : List Char :=
  (s.reverse.dropWhile (fun c => c = '/')).reverse

/-- libzip constant ZIP_OPSYS_DOS. -/
def ZIP_OPSYS_DOS : Nat := 0

/-- libzip constant ZIP_OPSYS_UNIX. -/
def ZIP_OPSYS_UNIX : Nat := 3

/-- libzip constant ZIP_CM_STORE. -/
def ZIP_CM_STORE : Nat := 0

/-- libzip constant ZIP_CM_DEFLATE. -/
def ZIP_CM_DEFLATE : Nat := 8

/-- Default embedded-file size cap: 100 MiB. -/
def WzMapZipDefaultEmbeddedFileMaxFileSize : Nat := 104857600

/-- One archive entry of the modelled libzip archive.  `data` is the entry's
uncompressed content; the stat fields mirror zip_stat_t: the stated size is
`data.length` (validity flag `sizeValid`), `compMethod`/`compMethodValid`
mirror st.comp_method and the ZIP_STAT_COMP_METHOD flag, and `opsys` is the
external-attributes operating-system tag. -/
structure ZipEntry where
  name : List Char
  data : List Nat
  opsys : Nat
  compMethod : Nat
  compMethodValid : Bool
  sizeValid : Bool
deriving DecidableEq

/-- Open mode of a binary stream (WzMap::BinaryIOStream::OpenMode). -/
inductive OpenMode
  | READ
  | WRITE
deriving DecidableEq

/-- Result enum of loadFullFile (WzMap::IOProvider::LoadFullFileResult). -/
inductive LoadFullFileResult
  | SUCCESS
  | FAILURE_OPEN
  | FAILURE_READ
  | FAILURE_EXCEEDS_MAXFILESIZE
deriving DecidableEq

/-- Result of the pre-read sanity check (ZipSanityCheckResult). -/
inductive ZipSanityCheckResult
  | PASSED
  | FAILURE_EXCEEDS_MAXFILESIZE
  | FAILURE_UNSUPPORTED_COMP_METHOD
deriving DecidableEq

/-- Model of zip_name_locate: index of the first entry whose stored name
matches the given name exactly. -/
def zip_name_locate : List ZipEntry → List Char → Option Nat
  | [], _ => none
  | e :: rest, fname =>
    if e.name = fname then some 0
    else
      match zip_name_locate rest fname with
      | some i => some (i + 1)
      | none => none

/-- Entry registered by a write-stream close: zip_file_add stores the buffer
as a file entry with a known size and the standard deflate method. -/
def mkWriteEntry (name : List Char) (data : List Nat) : ZipEntry :=
  { name := name, data := data, opsys := ZIP_OPSYS_UNIX, compMethod := ZIP_CM_DEFLATE,
    compMethodValid := true, sizeValid := true }

/-- Model of zip_file_add with ZIP_FL_OVERWRITE | ZIP_FL_ENC_UTF_8: replace the
first entry with the same name, or append a new entry. -/
def zip_file_add_overwrite (entries : List ZipEntry) (name : List Char) (data : List Nat) : List ZipEntry :=
  match zip_name_locate entries name with
  | some i => entries.set i (mkWriteEntry name data)
  | none => entries ++ [mkWriteEntry name data]

/-- wz_zip_name_locate_impl: literal lookup first; on failure, retry with all
forward slashes replaced by backslashes iff the workaround flag is set. -/
def wz_zip_name_locate_impl (entries : List ZipEntry) (fname : List Char)
    (useWindowsPathWorkaroundIfNeeded : Bool) : Option Nat :=
  match zip_name_locate entries fname with
  | some i => some i
  | none =>
    if useWindowsPathWorkaroundIfNeeded then
      zip_name_locate entries (replaceChar fname '/' '\\')
    else
      none

/-- State of a zip_file_t read handle: the entry's uncompressed bytes, the
read cursor, and whether the backend is in a hard-failure state (zip_fread
returning a negative value). -/
structure ZipReadHandle where
  data : List Nat
  pos : Nat
  readError : Bool
deriving DecidableEq

/-- Model of zip_fread: on hard failure returns none; otherwise reads up to
`len` bytes from the cursor (fewer at end of file) and advances it. -/
def zip_fread (h : ZipReadHandle) (len : Nat) : Option (List Nat) × ZipReadHandle :=
  if h.readError then (none, h)
  else
    let bytesRead := (h.data.drop h.pos).take len
    (some bytesRead, { h with pos := h.pos + bytesRead.length })

/-- State of a WzMapBinaryZipIOStream.  Write-buffer capacity bookkeeping is
not modelled (allocation is assumed to succeed); the buffer itself is the
byte list `m_writeBuffer`. -/
structure WzMapBinaryZipIOStream where
  m_mode : OpenMode
  m_pReadHandle : Option ZipReadHandle
  m_extraByteRead : Option Nat
  m_filename : List Char
  m_writeBuffer : List Nat
  m_fixedLastMod : Bool
deriving DecidableEq

/-- WzMapBinaryZipIOStream::readBytes: drains the one-byte lookahead first,
then forwards the remainder to zip_fread; returns the byte count, the bytes
placed in the caller's buffer, and the updated stream.  (The size_t underflow
of `len -= 1` when `len = 0` with a pending lookahead byte is not modelled;
no claim involves that input.) -/
def readBytes (s : WzMapBinaryZipIOStream) (len : Nat) :
    Option Nat × List Nat × WzMapBinaryZipIOStream :=
  match s.m_pReadHandle with
  | none => (none, [], s)
  | some h =>
    match s.m_extraByteRead with
    | some b =>
      match zip_fread h (len - 1) with
      | (none, h') => (some 1, [b], { s with m_pReadHandle := some h', m_extraByteRead := none })
      | (some bytes, h') =>
        (some (1 + bytes.length), b :: bytes,
          { s with m_pReadHandle := some h', m_extraByteRead := none })
    | none =>
      match zip_fread h len with
      | (none, h') => (none, [], { s with m_pReadHandle := some h' })
      | (some bytes, h') => (some bytes.length, bytes, { s with m_pReadHandle := some h' })

/-- Modelled from the spec: BinaryIOStream::readULE8 is declared in the
external wzmaplib map_io.h header, which is not part of this source excerpt.
Per the spec, endOfStream "performs a 1-byte read-ahead, caches the byte if
successful": readULE8 reads one byte through readBytes and succeeds iff
exactly one byte is produced. -/
def readULE8 (s : WzMapBinaryZipIOStream) : Option Nat × WzMapBinaryZipIOStream :=
  match readBytes s 1 with
  | (some 1, bytes, s') => (bytes.head?, s')
  | (_, _, s') => (none, s')

/-- WzMapBinaryZipIOStream::endOfStream: a side-effecting probe that reads one
byte ahead and caches it on success; reports true only when the speculative
read fails. -/
def endOfStream (s : WzMapBinaryZipIOStream) : Bool × WzMapBinaryZipIOStream :=
  if s.m_mode ≠ OpenMode.READ then (false, s)
  else
    match s.m_pReadHandle with
    | none => (false, s)
    | some _ =>
      match s.m_extraByteRead with
      | some _ => (false, s)
      | none =>
        match readULE8 s with
        | (none, s') => (true, s')
        | (some b, s') => (false, { s' with m_extraByteRead := some b })

/-- WzMapBinaryZipIOStream::writeBytes: appends to the in-memory write buffer.
Capacity growth and realloc failure are not modelled (allocation succeeds). -/
def writeBytes (s : WzMapBinaryZipIOStream) (buffer : List Nat) :
    Option Nat × WzMapBinaryZipIOStream :=
  (some buffer.length, { s with m_writeBuffer := s.m_writeBuffer ++ buffer })

/-- WzMapBinaryZipIOStream::close.  Takes and returns the shared archive's
entry list (the C++ stream mutates the archive through its shared handle).
The fixed-DOS-timestamp stamping has no observable counterpart in this model
(entry timestamps are not modelled), and zip_source_buffer / zip_file_add are
modelled as succeeding. -/
def streamClose (s : WzMapBinaryZipIOStream) (entries : List ZipEntry) :
    Bool × WzMapBinaryZipIOStream × List ZipEntry :=
  match s.m_pReadHandle with
  | some _ => (true, { s with m_pReadHandle := none, m_filename := [] }, entries)
  | none =>
    if 0 < s.m_writeBuffer.length then
      if s.m_filename = [] then
        (false, { s with m_writeBuffer := [] }, entries)
      else
        (true, { s with m_writeBuffer := [], m_filename := [] },
          zip_file_add_overwrite entries s.m_filename s.m_writeBuffer)
    else
      (true, s, entries)

/-- WzMapBinaryZipIOStream::openForReading: zip_fopen_index yields a read
handle for a valid index (none for an invalid one); the stream object itself
is always produced for an open archive. -/
def openForReading (entries : List ZipEntry) (zipArchiveIndex : Nat) : WzMapBinaryZipIOStream :=
  { m_mode := OpenMode.READ
  , m_pReadHandle :=
      (entries[zipArchiveIndex]?).map (fun e => { data := e.data, pos := 0, readError := false })
  , m_extraByteRead := none
  , m_filename := []
  , m_writeBuffer := []
  , m_fixedLastMod := false }

/-- WzMapBinaryZipIOStream::openForWriting: fails only for an empty filename
(the archive handle of an open provider is always non-null). -/
def openForWriting (filename : List Char) (fixedLastMod : Bool) : Option WzMapBinaryZipIOStream :=
  if filename = [] then none
  else
    some { m_mode := OpenMode.WRITE
         , m_pReadHandle := none
         , m_extraByteRead := none
         , m_filename := filename
         , m_writeBuffer := []
         , m_fixedLastMod := fixedLastMod }

/-- Number of bytes still readable from a read stream: the cached lookahead
byte plus the bytes past the cursor. -/
def streamRemaining (s : WzMapBinaryZipIOStream) : Nat :=
  (match s.m_pReadHandle with
   | none => 0
   | some h => h.data.length - h.pos) + (if s.m_extraByteRead.isSome then 1 else 0)

/-- State of the WzMapZipIO facade: the shared archive's entry list, the
lazily built directory cache, and the memoized malformed-path-separator
flag.  (Named with a Provider suffix to keep the Lean identifier regular.) -/
structure WzMapZipIOProvider where
  entries : List ZipEntry
  m_cachedDirectoriesList : List (List Char)
  m_foundMalformedWindowsPathSeparators : Option Bool
  m_fixedLastMod : Bool
deriving DecidableEq

/-- Pure part of determineIfMalformedWindowsPathSeparatorWorkaround: scan
entries in order; the first DOS-origin entry whose name contains a backslash
settles the archive as quirky, one containing a forward slash settles it as
non-quirky, and the first non-DOS entry also settles it as non-quirky. -/
def determineIfMalformedWindowsPathSeparatorWorkaround : List ZipEntry → Bool
  | [] => false
  | e :: rest =>
    if e.opsys = ZIP_OPSYS_DOS then
      if '\\' ∈ e.name then true
      else if '/' ∈ e.name then false
      else determineIfMalformedWindowsPathSeparatorWorkaround rest
    else false

/-- The malformed_windows_path_separators_workaround macro: memoized access to
the workaround flag (computes and stores it on first use). -/
def malformedWorkaroundFlag (z : WzMapZipIOProvider) : Bool × WzMapZipIOProvider :=
  match z.m_foundMalformedWindowsPathSeparators with
  | some b => (b, z)
  | none =>
    let b := determineIfMalformedWindowsPathSeparatorWorkaround z.entries
    (b, { z with m_foundMalformedWindowsPathSeparators := some b })

/-- wzMapZipIOSanityCheckStat: size-cap check first, then the
compression-method allowlist (store or deflate only). -/
def wzMapZipIOSanityCheckStat (st : ZipEntry) (fileSizeLimit : Nat) : ZipSanityCheckResult :=
  if st.sizeValid ∧ fileSizeLimit < st.data.length then
    ZipSanityCheckResult.FAILURE_EXCEEDS_MAXFILESIZE
  else if st.compMethodValid ∧ st.compMethod ≠ ZIP_CM_STORE ∧ st.compMethod ≠ ZIP_CM_DEFLATE then
    ZipSanityCheckResult.FAILURE_UNSUPPORTED_COMP_METHOD
  else
    ZipSanityCheckResult.PASSED

/-- WzMapZipIO::fileExists. -/
def fileExists (z : WzMapZipIOProvider) (filename : List Char) : Bool × WzMapZipIOProvider :=
  let fz := malformedWorkaroundFlag z
  ((wz_zip_name_locate_impl fz.2.entries filename fz.1).isSome, fz.2)

/-- WzMapZipIO::openBinaryStream.  For read: locate (with the separator
workaround), stat, sanity-check with the default cap, then open; for write:
openForWriting unconditionally. -/
def openBinaryStream (z : WzMapZipIOProvider) (filename : List Char) (mode : OpenMode) :
    Option WzMapBinaryZipIOStream × WzMapZipIOProvider :=
  match mode with
  | OpenMode.READ =>
    let fz := malformedWorkaroundFlag z
    match wz_zip_name_locate_impl fz.2.entries filename fz.1 with
    | none => (none, fz.2)
    | some zipFileIndex =>
      match fz.2.entries[zipFileIndex]? with
      | none => (none, fz.2)
      | some st =>
        if wzMapZipIOSanityCheckStat st WzMapZipDefaultEmbeddedFileMaxFileSize ≠ ZipSanityCheckResult.PASSED then
          (none, fz.2)
        else
          (some (openForReading fz.2.entries zipFileIndex), fz.2)
  | OpenMode.WRITE => (openForWriting filename z.m_fixedLastMod, z)

/-- memcpy of the produced bytes into the front of the resized buffer; the
bytes read never exceed the buffer size at the call sites. -/
def memcpyInto (buf bytes : List Nat) : List Nat :=
  bytes ++ buf.drop bytes.length

/-- WzMapZipIO::loadFullFile.  The zip_stat_index call always succeeds for a
located index in this model, and openForReading always yields a stream for an
open archive. -/
def loadFullFile (z : WzMapZipIOProvider) (filename : List Char) (fileData : List Nat)
    (maxFileSize : Nat) (appendNullCharacter : Bool) :
    LoadFullFileResult × List Nat × WzMapZipIOProvider :=
  let fz := malformedWorkaroundFlag z
  match wz_zip_name_locate_impl fz.2.entries filename fz.1 with
  | none => (LoadFullFileResult.FAILURE_OPEN, fileData, fz.2)
  | some zipFileIndex =>
    match fz.2.entries[zipFileIndex]? with
    | none => (LoadFullFileResult.FAILURE_OPEN, fileData, fz.2)
    | some st =>
      if ¬ st.sizeValid then (LoadFullFileResult.FAILURE_OPEN, fileData, fz.2)
      else
        match wzMapZipIOSanityCheckStat st
            (if maxFileSize ≠ 0 then maxFileSize else WzMapZipDefaultEmbeddedFileMaxFileSize) with
        | ZipSanityCheckResult.PASSED =>
          let readStream := openForReading fz.2.entries zipFileIndex
          let expectedFileSize := st.data.length
          let buf := List.replicate (expectedFileSize + (if appendNullCharacter then 1 else 0)) 0
          match readBytes readStream buf.length with
          | (none, _, _) => (LoadFullFileResult.FAILURE_READ, buf, fz.2)
          | (some count, bytes, _) =>
            if count ≠ expectedFileSize then (LoadFullFileResult.FAILURE_READ, [], fz.2)
            else
              let filled := memcpyInto buf bytes
              (LoadFullFileResult.SUCCESS,
                (if appendNullCharacter then filled.set (filled.length - 1) 0 else filled), fz.2)
        | ZipSanityCheckResult.FAILURE_EXCEEDS_MAXFILESIZE =>
          (LoadFullFileResult.FAILURE_EXCEEDS_MAXFILESIZE, fileData, fz.2)
        | ZipSanityCheckResult.FAILURE_UNSUPPORTED_COMP_METHOD =>
          (LoadFullFileResult.FAILURE_OPEN, fileData, fz.2)

/-- WzMapZipIO::writeFullFile: open a write stream, write all bytes, close
(the close return value is ignored, as in the source), then invalidate the
directory cache. -/
def writeFullFile (z : WzMapZipIOProvider) (filename : List Char) (fileData : List Nat) :
    Bool × WzMapZipIOProvider :=
  match openForWriting filename z.m_fixedLastMod with
  | none => (false, z)
  | some writeStream =>
    match writeBytes writeStream fileData with
    | (none, _) => (false, z)
    | (some count, writeStream') =>
      if count ≠ fileData.length then (false, z)
      else
        let closed := streamClose writeStream' z.entries
        (true, { z with entries := closed.2.2, m_cachedDirectoriesList := [] })

/-- isUnsafeZipEntryName: empty name, a ".." substring, a leading path
separator (either kind), or a Windows drive-letter prefix. -/
def isUnsafeZipEntryName : List Char → Bool
  | [] => true
  | c0 :: rest =>
    if listHasInfix (c0 :: rest) ['.', '.'] then true
    else if c0 = '/' ∨ c0 = '\\' then true
    else
      match rest with
      | c1 :: _ =>
        if c1 = ':' ∧ (('A' ≤ c0 ∧ c0 ≤ 'Z') ∨ ('a' ≤ c0 ∧ c0 ≤ 'z')) then true
        else false
      | [] => false

/-- Separator normalization applied per entry inside the enumeration loops:
when the workaround flag is active, a DOS-origin entry containing a backslash
has its backslashes replaced by forward slashes. -/
def normalizeEntryName (workaround : Bool) (e : ZipEntry) : List Char :=
  if workaround ∧ e.opsys = ZIP_OPSYS_DOS ∧ '\\' ∈ e.name then
    replaceChar e.name '\\' '/'
  else
    e.name

/-- Base-path preprocessing shared by the enumeration functions: append a
trailing slash to a non-empty base path that lacks one, then treat a plain
slash as the empty base path. -/
def computeBasePath (basePath : List Char) : List Char :=
  let b := if basePath ≠ [] ∧ basePath.getLast? ≠ some '/' then basePath ++ ['/'] else basePath
  if b = ['/'] then [] else b

/-- Per-entry body of the enumerateFilesInternal loop. -/
def enumerateFilesStep (workaround : Bool) (basePathToSearch : List Char) (recurse : Bool)
    (e : ZipEntry) : Option (List Char) :=
  if e.name = [] then none
  else
    let nameStr := normalizeEntryName workaround e
    if basePathToSearch ≠ [] ∧ ¬ basePathToSearch.isPrefixOf nameStr then none
    else if isUnsafeZipEntryName nameStr then none
    else if nameStr.getLast? = some '/' then none
    else if ¬ recurse ∧ (strFindFrom nameStr '/' basePathToSearch.length).isSome then none
    else some (nameStr.drop basePathToSearch.length)

/-- Loop of enumerateFilesInternal over all entries (pure part, with the
workaround flag already determined). -/
def enumerateFilesList (workaround : Bool) (entries : List ZipEntry) (basePath : List Char)
    (recurse : Bool) : List (List Char) :=
  entries.filterMap (enumerateFilesStep workaround (computeBasePath basePath) recurse)

/-- Deduplicating push into the directory cache (the unordered_set insert plus
vector push_back pair of the source). -/
def pushIfNew (cache : List (List Char)) (d : List Char) : List (List Char) :=
  if d ∈ cache then cache else cache ++ [d]

/-- Ancestor-derivation while-loop of the directory-cache builder, with
explicit fuel.  Each iteration strictly shrinks the string (at least one
trailing slash is removed after every insertion), so `length + 1` fuel always
suffices and the fuel never runs out at the call site below. -/
def addAncestorDirsFuel : Nat → List Char → List (List Char) → List (List Char)
  | 0, _, cache => cache
  | _ + 1, [], cache => cache
  | fuel + 1, nameStr@(_ :: _), cache =>
    if nameStr.getLast? = some '/' then
      addAncestorDirsFuel fuel (stripTrailingSlashes nameStr) (pushIfNew cache nameStr)
    else
      match strRFind nameStr '/' with
      | none => cache
      | some lastSlashPos =>
        let d := nameStr.take (lastSlashPos + 1)
        addAncestorDirsFuel fuel (stripTrailingSlashes d) (pushIfNew cache d)

/-- Ancestor-derivation loop at its natural fuel. -/
def addAncestorDirs (nameStr : List Char) (cache : List (List Char)) : List (List Char) :=
  addAncestorDirsFuel (nameStr.length + 1) nameStr cache

/-- Per-entry body of the cache-build loop in enumerateFoldersInternal. -/
def buildDirectoriesStep (workaround : Bool) (cache : List (List Char)) (e : ZipEntry) :
    List (List Char) :=
  if e.name = [] then cache
  else
    let nameStr := normalizeEntryName workaround e
    if isUnsafeZipEntryName nameStr then cache
    else addAncestorDirs nameStr cache

/-- Build and sort the directory cache from all entries. -/
def buildDirectoriesCache (workaround : Bool) (entries : List ZipEntry) : List (List Char) :=
  sortStrings (entries.foldl (buildDirectoriesStep workaround) [])

/-- Per-cached-directory body of the listing loop in enumerateFoldersInternal. -/
def enumerateFoldersStep (basePathToSearch : List Char) (recurse : Bool) (dirPath : List Char) :
    Option (List Char) :=
  if basePathToSearch ≠ [] ∧ ¬ basePathToSearch.isPrefixOf dirPath then none
  else if dirPath.length = basePathToSearch.length then none
  else if ¬ recurse ∧ (match strFindFrom dirPath '/' basePathToSearch.length with
                       | some firstSlashPos => decide (firstSlashPos ≠ dirPath.length - 1)
                       | none => false) = true then none
  else some (dirPath.drop basePathToSearch.length)

/-- Listing pass of enumerateFoldersInternal over the (built) cache. -/
def enumerateFoldersFilter (cache : List (List Char)) (basePath : List Char) (recurse : Bool) :
    List (List Char) :=
  cache.filterMap (enumerateFoldersStep (computeBasePath basePath) recurse)

/-- enumerateFilesInternal at the facade level.  The workaround flag is
computed (and memoized) inside the loop, hence only when some entry has a
non-empty name; when every name is empty, every entry is skipped before the
flag is consulted, so the flag value is irrelevant to the output. -/
def enumerateFilesInternal (z : WzMapZipIOProvider) (basePath : List Char) (recurse : Bool) :
    List (List Char) × WzMapZipIOProvider :=
  if z.entries.any (fun e => decide (e.name ≠ [])) then
    let fz := malformedWorkaroundFlag z
    (enumerateFilesList fz.1 fz.2.entries basePath recurse, fz.2)
  else
    (enumerateFilesList false z.entries basePath recurse, z)

/-- enumerateFoldersInternal at the facade level: build the cache if it is
empty (the workaround flag is computed inside the build loop when some entry
has a non-empty name, and an archive whose names are all empty produces an
empty cache under either flag value), then list from the cache. -/
def enumerateFoldersInternal (z : WzMapZipIOProvider) (basePath : List Char) (recurse : Bool) :
    List (List Char) × WzMapZipIOProvider :=
  let z1 :=
    if z.m_cachedDirectoriesList = [] then
      if z.entries.any (fun e => decide (e.name ≠ [])) then
        let fz := malformedWorkaroundFlag z
        { fz.2 with m_cachedDirectoriesList := buildDirectoriesCache fz.1 fz.2.entries }
      else
        { z with m_cachedDirectoriesList := buildDirectoriesCache false z.entries }
    else z
  (enumerateFoldersFilter z1.m_cachedDirectoriesList basePath recurse, z1)

/-- WzMapZipIO::enumerateFiles. -/
def enumerateFiles (z : WzMapZipIOProvider) (basePath : List Char) :
    List (List Char) × WzMapZipIOProvider :=
  enumerateFilesInternal z basePath false

/-- WzMapZipIO::enumerateFolders. -/
def enumerateFolders (z : WzMapZipIOProvider) (basePath : List Char) :
    List (List Char) × WzMapZipIOProvider :=
  enumerateFoldersInternal z basePath false

/-- WzMapZipIO::enumerateFilesRecursive. -/
def enumerateFilesRecursive (z : WzMapZipIOProvider) (basePath : List Char) :
    List (List Char) × WzMapZipIOProvider :=
  enumerateFilesInternal z basePath true

/-- WzMapZipIO::enumerateFoldersRecursive. -/
def enumerateFoldersRecursive (z : WzMapZipIOProvider) (basePath : List Char) :
    List (List Char) × WzMapZipIOProvider :=
  enumerateFoldersInternal z basePath true

/-- Empty writable in-memory archive (concrete instance for claim C1). -/
def c1_provider_empty : WzMapZipIOProvider :=
  { entries := [], m_cachedDirectoriesList := [],
    m_foundMalformedWindowsPathSeparators := none, m_fixedLastMod := false }

/-- Provider state after writeFullFile of one byte under the name "f"
(concrete instance for claim C1). -/
def c1_provider_written : WzMapZipIOProvider :=
  { entries := [mkWriteEntry ("f".toList) [7]], m_cachedDirectoriesList := [],
    m_foundMalformedWindowsPathSeparators := none, m_fixedLastMod := false }

/-- Three-byte stored entry (concrete instance for claim C2). -/
def c2_entry : ZipEntry :=
  { name := "a".toList, data := [1, 2, 3], opsys := ZIP_OPSYS_UNIX,
    compMethod := ZIP_CM_STORE, compMethodValid := true, sizeValid := true }

/-- Archive holding `c2_entry` (concrete instance for claim C2). -/
def c2_provider : WzMapZipIOProvider :=
  { entries := [c2_entry], m_cachedDirectoriesList := [],
    m_foundMalformedWindowsPathSeparators := some false, m_fixedLastMod := false }

/-- Read handle over one byte (concrete instance for claim C4). -/
def c4_handle : ZipReadHandle := { data := [5], pos := 0, readError := false }

/-- Fresh read stream over `c4_handle` (concrete instance for claim C4). -/
def c4_stream : WzMapBinaryZipIOStream :=
  { m_mode := OpenMode.READ, m_pReadHandle := some c4_handle, m_extraByteRead := none,
    m_filename := [], m_writeBuffer := [], m_fixedLastMod := false }

/-- Entry under the directory "x/" (concrete instance for claim C5). -/
def c5_entry : ZipEntry :=
  { name := "x/y.txt".toList, data := [], opsys := ZIP_OPSYS_UNIX,
    compMethod := ZIP_CM_STORE, compMethodValid := true, sizeValid := true }

/-- Provider before any enumeration (concrete instance for claim C5). -/
def c5_provider0 : WzMapZipIOProvider :=
  { entries := [c5_entry], m_cachedDirectoriesList := [],
    m_foundMalformedWindowsPathSeparators := none, m_fixedLastMod := false }

/-- Provider after a first folder enumeration built the cache (concrete
instance for claim C5). -/
def c5_provider1 : WzMapZipIOProvider :=
  { c5_provider0 with m_cachedDirectoriesList := ["x/".toList],
                      m_foundMalformedWindowsPathSeparators := some false }

/-- Write stream for "d/f" obtained from openBinaryStream (concrete instance
for claim C5). -/
def c5_stream : WzMapBinaryZipIOStream :=
  { m_mode := OpenMode.WRITE, m_pReadHandle := none, m_extraByteRead := none,
    m_filename := "d/f".toList, m_writeBuffer := [], m_fixedLastMod := false }

/-- The same stream after its close handed the buffer to the archive
(concrete instance for claim C5). -/
def c5_closed_stream : WzMapBinaryZipIOStream :=
  { m_mode := OpenMode.WRITE, m_pReadHandle := none, m_extraByteRead := none,
    m_filename := [], m_writeBuffer := [], m_fixedLastMod := false }

/-- Provider state after writeFullFile of one byte under the name "f" on
`c5_provider0` (concrete instance for claim C5). -/
def c5_written_provider : WzMapZipIOProvider :=
  { entries := [c5_entry, mkWriteEntry ("f".toList) [1]], m_cachedDirectoriesList := [],
    m_foundMalformedWindowsPathSeparators := none, m_fixedLastMod := false }

/-- Open provider over an empty archive (concrete instance for claim C6). -/
def c6_provider : WzMapZipIOProvider :=
  { entries := [], m_cachedDirectoriesList := [],
    m_foundMalformedWindowsPathSeparators := none, m_fixedLastMod := false }

/-- Archive whose entries are exactly a/b/c.txt (concrete instance for
claim C7). -/
def c7_provider : WzMapZipIOProvider :=
  { entries := [{ name := "a/b/c.txt".toList, data := [], opsys := ZIP_OPSYS_UNIX,
                  compMethod := ZIP_CM_STORE, compMethodValid := true, sizeValid := true }],
    m_cachedDirectoriesList := [], m_foundMalformedWindowsPathSeparators := none,
    m_fixedLastMod := false }

/-- DOS-origin entry literally stored with a backslash separator (concrete
instance for claim C8). -/
def c8_entry : ZipEntry :=
  { name := "dir\\file.txt".toList, data := [0], opsys := ZIP_OPSYS_DOS,
    compMethod := ZIP_CM_STORE, compMethodValid := true, sizeValid := true }

/-- Archive holding `c8_entry` with the quirk flag not yet determined
(concrete instance for claim C8). -/
def c8_provider : WzMapZipIOProvider :=
  { entries := [c8_entry], m_cachedDirectoriesList := [],
    m_foundMalformedWindowsPathSeparators := none, m_fixedLastMod := false }

/-- Entry with an unsupported compression method (12, bzip2) (concrete
instance for claim C9). -/
def c9_entry : ZipEntry :=
  { name := "a".toList, data := [1, 2, 3], opsys := ZIP_OPSYS_UNIX,
    compMethod := 12, compMethodValid := true, sizeValid := true }

/-- Archive holding `c9_entry` (concrete instance for claim C9). -/
def c9_provider : WzMapZipIOProvider :=
  { entries := [c9_entry], m_cachedDirectoriesList := [],
    m_foundMalformedWindowsPathSeparators := some false, m_fixedLastMod := false }

/-- Read handle in the backend hard-failure state (concrete instance for
claim C10). -/
def c10_handle : ZipReadHandle := { data := [1, 2], pos := 0, readError := true }

/-- Read stream over `c10_handle` holding a cached lookahead byte (concrete
instance for claim C10). -/
def c10_stream : WzMapBinaryZipIOStream :=
  { m_mode := OpenMode.READ, m_pReadHandle := some c10_handle, m_extraByteRead := some 7,
    m_filename := [], m_writeBuffer := [], m_fixedLastMod := false }

/-- The workaround-flag accessor either returns the memoized value or memoizes
the freshly computed one; in both cases the rest of the state is unchanged. -/
theorem malformedWorkaroundFlag_spec (z : WzMapZipIOProvider) :
    ∃ b, malformedWorkaroundFlag z
      = (b, { z with m_foundMalformedWindowsPathSeparators := some b }) := by
  cases z with
  | mk entries cache memo fixed =>
    cases memo with
    | none => exact ⟨_, rfl⟩
    | some b => exact ⟨b, rfl⟩

/-- Adding an entry under a name different from the head entry's name leaves
the head in place. -/
theorem zip_file_add_overwrite_cons_of_ne (e : ZipEntry) (rest : List ZipEntry)
    (name : List Char) (data : List Nat) (he : e.name ≠ name) :
    zip_file_add_overwrite (e :: rest) name data = e :: zip_file_add_overwrite rest name data := by
  cases h : zip_name_locate rest name with
  | none =>
    have h2 : zip_name_locate (e :: rest) name = none := by
      unfold zip_name_locate
      simp [he, h]
    simp [zip_file_add_overwrite, h, h2]
  | some i =>
    have h2 : zip_name_locate (e :: rest) name = some (i + 1) := by
      unfold zip_name_locate
      simp [he, h]
    simp [zip_file_add_overwrite, h, h2]

/-- After an overwriting add, the name locates an index holding exactly the
newly written entry. -/
theorem zip_file_add_overwrite_locate (entries : List ZipEntry) (name : List Char)
    (data : List Nat) :
    ∃ i, zip_name_locate (zip_file_add_overwrite entries name data) name = some i ∧
      (zip_file_add_overwrite entries name data)[i]? = some (mkWriteEntry name data) := by
  induction entries with
  | nil => exact ⟨0, by simp [zip_file_add_overwrite, zip_name_locate, mkWriteEntry]⟩
  | cons e rest ih =>
    by_cases he : e.name = name
    · refine ⟨0, ?_, ?_⟩
      · simp [zip_file_add_overwrite, zip_name_locate, he, mkWriteEntry]
      · simp [zip_file_add_overwrite, zip_name_locate, he, mkWriteEntry]
    · obtain ⟨j, hj1, hj2⟩ := ih
      rw [zip_file_add_overwrite_cons_of_ne e rest name data he]
      refine ⟨j + 1, ?_, ?_⟩
      · unfold zip_name_locate
        simp [he, hj1]
      · simpa using hj2

/-- Filtering out elements that the step function maps to none does not change
a filterMap. -/
theorem filterMap_filter_eq_of_none {α β : Type} (p : α → Bool) (f : α → Option β) (l : List α)
    (h : ∀ a, p a = false → f a = none) :
    (l.filter p).filterMap f = l.filterMap f := by
  induction l with
  | nil => rfl
  | cons a t ih =>
    by_cases hp : p a = true
    · simp [List.filter_cons, hp, List.filterMap_cons, ih]
    · have hp' : p a = false := by simpa using hp
      simp [List.filter_cons, hp', List.filterMap_cons, h a hp', ih]

/-- Filtering out elements on which the fold step is the identity does not
change a foldl. -/
theorem foldl_filter_eq_of_id {α β : Type} (p : α → Bool) (g : β → α → β) (l : List α)
    (h : ∀ b a, p a = false → g b a = b) :
    ∀ init, (l.filter p).foldl g init = l.foldl g init := by
  induction l with
  | nil => intro init; rfl
  | cons a t ih =>
    intro init
    by_cases hp : p a = true
    · simp only [List.filter_cons, hp, if_true, List.foldl_cons]
      exact ih (g init a)
    · have hp' : p a = false := by simpa using hp
      simp only [List.filter_cons, hp', List.foldl_cons, Bool.false_eq_true, if_false,
        h init a hp']
      exact ih init

/-- An entry whose normalized name is unsafe contributes nothing to the file
enumeration. -/
theorem enumerateFilesStep_none_of_unsafe (workaround : Bool) (bp : List Char) (recurse : Bool)
    (e : ZipEntry) (h : isUnsafeZipEntryName (normalizeEntryName workaround e) = true) :
    enumerateFilesStep workaround bp recurse e = none := by
  simp only [enumerateFilesStep]
  split_ifs <;> simp_all

/-- An entry whose normalized name is unsafe contributes nothing to the
directory cache. -/
theorem buildDirectoriesStep_id_of_unsafe (workaround : Bool) (cache : List (List Char))
    (e : ZipEntry) (h : isUnsafeZipEntryName (normalizeEntryName workaround e) = true) :
    buildDirectoriesStep workaround cache e = cache := by
  simp only [buildDirectoriesStep]
  split_ifs <;> simp_all

/-- Claim C1 (counterexample): on a fresh writable archive, writeFullFile with
the non-empty name "f" and a zero-length byte sequence returns true, yet the
subsequent loadFullFile does not return SUCCESS (the write-stream close adds
no entry when the buffer is empty, so the entry is never created and
loadFullFile fails with FAILURE_OPEN). -/
theorem c1_zero_length_counterexample :
    (writeFullFile c1_provider_empty ("f".toList) []).1 = true
    ∧ (loadFullFile (writeFullFile c1_provider_empty ("f".toList) []).2
        ("f".toList) [] 0 false).1 ≠ LoadFullFileResult.SUCCESS := by
  decide

/-- Claim C1 (amended): for every writable archive, every non-empty filename
and every non-empty byte sequence whose length is within the default load
cap, if writeFullFile returns true then a subsequent loadFullFile with the
default maximum returns SUCCESS and the output holds exactly the written
bytes. -/
theorem c1_write_read_roundtrip (z z' : WzMapZipIOProvider) (name : List Char) (data : List Nat)
    (buf : List Nat) (hname : name ≠ []) (hdata : data ≠ [])
    (hcap : data.length ≤ WzMapZipDefaultEmbeddedFileMaxFileSize)
    (hw : writeFullFile z name data = (true, z')) :
    ∃ z'', loadFullFile z' name buf 0 false = (LoadFullFileResult.SUCCESS, data, z'') := by
  have hpos : 0 < data.length := List.length_pos.mpr hdata
  cases z with
  | mk entries0 cache0 memo0 fixed0 =>
    have hz' : z' = { entries := zip_file_add_overwrite entries0 name data,
                      m_cachedDirectoriesList := [],
                      m_foundMalformedWindowsPathSeparators := memo0,
                      m_fixedLastMod := fixed0 } := by
      simp only [writeFullFile, openForWriting, hname, if_false, writeBytes, streamClose] at hw
      simp [hpos, hname] at hw
      exact hw.symm
    subst hz'
    obtain ⟨i, hloc, hget⟩ := zip_file_add_overwrite_locate entries0 name data
    obtain ⟨b, hflag⟩ := malformedWorkaroundFlag_spec
      { entries := zip_file_add_overwrite entries0 name data,
        m_cachedDirectoriesList := [],
        m_foundMalformedWindowsPathSeparators := memo0,
        m_fixedLastMod := fixed0 }
    have himpl : wz_zip_name_locate_impl (zip_file_add_overwrite entries0 name data) name b
        = some i := by
      simp [wz_zip_name_locate_impl, hloc]
    have hnlt : ¬ WzMapZipDefaultEmbeddedFileMaxFileSize < data.length := Nat.not_lt.mpr hcap
    refine ⟨{ entries := zip_file_add_overwrite entries0 name data,
              m_cachedDirectoriesList := [],
              m_foundMalformedWindowsPathSeparators := some b,
              m_fixedLastMod := fixed0 }, ?_⟩
    simp only [loadFullFile, hflag, himpl, hget, wzMapZipIOSanityCheckStat, mkWriteEntry,
      openForReading, readBytes, zip_fread, memcpyInto]
    simp [hnlt, ZIP_CM_DEFLATE, ZIP_CM_STORE, hget, List.take_length]

/-- Claim C1 (witness): the amended round-trip at the concrete empty archive,
the name "f" and the single byte 7. -/
theorem c1_write_read_roundtrip_witness :
    ∃ z'', loadFullFile c1_provider_written ("f".toList) [] 0 false
      = (LoadFullFileResult.SUCCESS, [7], z'') :=
  c1_write_read_roundtrip c1_provider_empty c1_provider_written ("f".toList) [7] []
    (by decide) (by decide) (by decide) (by decide)

/-- Claim C2: when the located entry's stated size strictly exceeds the
effective cap (the call's maxFileSize when non-zero, otherwise the
104,857,600-byte default), loadFullFile returns FAILURE_EXCEEDS_MAXFILESIZE
and the output buffer is returned exactly as it was passed in (no file bytes
are written into it). -/
theorem c2_load_exceeds_cap (z z' : WzMapZipIOProvider) (flag : Bool) (name : List Char)
    (fileData : List Nat) (maxFileSize : Nat) (appendNull : Bool) (idx : Nat) (st : ZipEntry)
    (hflag : malformedWorkaroundFlag z = (flag, z'))
    (hloc : wz_zip_name_locate_impl z'.entries name flag = some idx)
    (hst : z'.entries[idx]? = some st)
    (hsv : st.sizeValid = true)
    (hsz : (if maxFileSize ≠ 0 then maxFileSize else WzMapZipDefaultEmbeddedFileMaxFileSize)
            < st.data.length) :
    loadFullFile z name fileData maxFileSize appendNull
      = (LoadFullFileResult.FAILURE_EXCEEDS_MAXFILESIZE, fileData, z') := by
  have hsz' : (if maxFileSize = 0 then WzMapZipDefaultEmbeddedFileMaxFileSize else maxFileSize)
      < st.data.length := by
    rcases eq_or_ne maxFileSize 0 with h0 | h0 <;> simp [h0] at hsz ⊢ <;> exact hsz
  simp only [loadFullFile, hflag, hloc, hst, hsv, wzMapZipIOSanityCheckStat]
  simp [hsz']

/-- Claim C2 (witness): a three-byte entry loaded under an explicit two-byte
cap fails with FAILURE_EXCEEDS_MAXFILESIZE and the buffer [9] is untouched. -/
theorem c2_load_exceeds_cap_witness :
    loadFullFile c2_provider ("a".toList) [9] 2 false
      = (LoadFullFileResult.FAILURE_EXCEEDS_MAXFILESIZE, [9], c2_provider) :=
  c2_load_exceeds_cap c2_provider c2_provider false ("a".toList) [9] 2 false 0 c2_entry
    (by decide) (by decide) (by decide) (by decide) (by decide)

/-- Claim C3: for every archive (whatever its raw entries), every base path
and both recursion modes, entries whose separator-normalized name is unsafe
(empty, containing "..", beginning with a slash or backslash, or starting
with a drive-letter prefix) are silently excluded from enumeration: removing
every such entry changes neither the file listing, nor the built directory
cache, nor the folder listing derived from it, and no error is surfaced (the
outputs are plain name lists either way).  The flag argument is the
archive's (memoized) separator-workaround classification. -/
theorem c3_unsafe_entries_excluded (flag : Bool) (entries : List ZipEntry) (basePath : List Char)
    (recurse : Bool) :
    enumerateFilesList flag
        (entries.filter (fun e => ! isUnsafeZipEntryName (normalizeEntryName flag e)))
        basePath recurse
      = enumerateFilesList flag entries basePath recurse
    ∧ buildDirectoriesCache flag
        (entries.filter (fun e => ! isUnsafeZipEntryName (normalizeEntryName flag e)))
      = buildDirectoriesCache flag entries
    ∧ enumerateFoldersFilter
        (buildDirectoriesCache flag
          (entries.filter (fun e => ! isUnsafeZipEntryName (normalizeEntryName flag e))))
        basePath recurse
      = enumerateFoldersFilter (buildDirectoriesCache flag entries) basePath recurse := by
  have hcache : buildDirectoriesCache flag
      (entries.filter (fun e => ! isUnsafeZipEntryName (normalizeEntryName flag e)))
      = buildDirectoriesCache flag entries := by
    unfold buildDirectoriesCache
    congr 1
    refine foldl_filter_eq_of_id _ _ _ ?_ []
    intro cache e hp
    have h : isUnsafeZipEntryName (normalizeEntryName flag e) = true := by
      simpa using hp
    exact buildDirectoriesStep_id_of_unsafe flag cache e h
  refine ⟨?_, hcache, by rw [hcache]⟩
  unfold enumerateFilesList
  refine filterMap_filter_eq_of_none _ _ _ ?_
  intro e hp
  have h : isUnsafeZipEntryName (normalizeEntryName flag e) = true := by
    simpa using hp
  exact enumerateFilesStep_none_of_unsafe flag (computeBasePath basePath) recurse e h

/-- Claim C4: on a read-mode stream with a live handle and a non-failing
backend, endOfStream returns false exactly when at least one more byte is
readable (cached lookahead byte or bytes past the cursor); when it probes (no
byte cached) it caches the byte at the cursor, if any, so that any following
readBytes call with len at least 1 behaves exactly as it would have without
the probe (the cached byte is yielded first); it returns true only when the
speculative one-byte read at the true end fails; and a stream over a
zero-byte entry reports end-of-stream true on the first call. -/
theorem c4_endOfStream_probe (s : WzMapBinaryZipIOStream) (h : ZipReadHandle)
    (hmode : s.m_mode = OpenMode.READ) (hh : s.m_pReadHandle = some h)
    (herr : h.readError = false) :
    ((endOfStream s).1 = false ↔ 0 < streamRemaining s)
    ∧ (s.m_extraByteRead = none → (endOfStream s).2.m_extraByteRead = h.data[h.pos]?)
    ∧ (∀ len, 1 ≤ len → readBytes (endOfStream s).2 len = readBytes s len)
    ∧ (h.data = [] → s.m_extraByteRead = none → (endOfStream s).1 = true) := by
  cases s with
  | mk mode rh extra fn wb fm =>
    simp only at hmode hh
    subst hmode
    subst hh
    cases h with
    | mk data pos rerr =>
      simp only at herr
      subst herr
      cases extra with
      | some b =>
        refine ⟨?_, ?_, ?_, ?_⟩
        · simp [endOfStream, streamRemaining]
        · intro hb
          simp at hb
        · intro len hlen
          simp [endOfStream]
        · intro _ hb
          simp at hb
      | none =>
        by_cases hpos : pos < data.length
        · have hdrop : data.drop pos = data[pos] :: data.drop (pos + 1) :=
            List.drop_eq_getElem_cons hpos
          have hbytes : (data.drop pos).take 1 = [data[pos]] := by
            rw [hdrop]
            rfl
          have heos : endOfStream ⟨OpenMode.READ, some ⟨data, pos, false⟩, none, fn, wb, fm⟩
              = (false, ⟨OpenMode.READ, some ⟨data, pos + 1, false⟩, some data[pos], fn, wb, fm⟩) := by
            simp [endOfStream, readULE8, readBytes, zip_fread, hbytes]
          refine ⟨?_, ?_, ?_, ?_⟩
          · rw [heos]
            simp [streamRemaining]
            omega
          · intro _
            rw [heos]
            simp [List.getElem?_eq_getElem hpos]
          · intro len hlen
            rw [heos]
            obtain ⟨m, rfl⟩ : ∃ m, len = m + 1 := ⟨len - 1, by omega⟩
            have htake : (data.drop pos).take (m + 1)
                = data[pos] :: (data.drop (pos + 1)).take m := by
              rw [hdrop, List.take_succ_cons]
            simp only [readBytes, zip_fread, htake, Bool.false_eq_true, if_false,
              List.length_cons, Nat.add_sub_cancel, Prod.mk.injEq, Option.some.injEq,
              WzMapBinaryZipIOStream.mk.injEq, ZipReadHandle.mk.injEq]
            and_intros <;> first | trivial | omega
          · intro hnil _
            subst hnil
            simp at hpos
        · have hdrop : data.drop pos = [] := List.drop_eq_nil_of_le (by omega)
          have hbytes : (data.drop pos).take 1 = [] := by
            rw [hdrop]
            rfl
          have heos : endOfStream ⟨OpenMode.READ, some ⟨data, pos, false⟩, none, fn, wb, fm⟩
              = (true, ⟨OpenMode.READ, some ⟨data, pos, false⟩, none, fn, wb, fm⟩) := by
            simp [endOfStream, readULE8, readBytes, zip_fread, hbytes]
          have hrem : streamRemaining ⟨OpenMode.READ, some ⟨data, pos, false⟩, none, fn, wb, fm⟩
              = data.length - pos := by
            simp [streamRemaining]
          refine ⟨?_, ?_, ?_, ?_⟩
          · rw [heos, hrem]
            simp
            omega
          · intro _
            have hnone : data[pos]? = none := List.getElem?_eq_none (by omega)
            rw [heos]
            simp [hnone]
          · intro len hlen
            rw [heos]
          · intro _ _
            rw [heos]

/-- Claim C4 (witness): the probe transparency at a concrete one-byte stream,
instantiated at len 1 after discharging the hypotheses. -/
theorem c4_endOfStream_probe_witness :
    readBytes (endOfStream c4_stream).2 1 = readBytes c4_stream 1 :=
  (c4_endOfStream_probe c4_stream c4_handle rfl rfl rfl).2.2.1 1 (by decide)

/-- Claim C5 (counterexample): closing a write stream obtained from
openBinaryStream mutates the archive's entry set but does not clear the
facade's cached directory list.  Concretely: enumerating folders on an
archive holding x/y.txt builds the cache ["x/"]; a write stream for "d/f" is
then opened, written and successfully closed, adding the entry "d/f"; yet the
facade's cache still holds ["x/"], and a subsequent recursive folder
enumeration still yields only "x/" (a rebuilt cache would also yield "d/"). -/
theorem c5_stream_close_counterexample :
    enumerateFolders c5_provider0 [] = ([("x/".toList)], c5_provider1)
    ∧ openBinaryStream c5_provider1 ("d/f".toList) OpenMode.WRITE = (some c5_stream, c5_provider1)
    ∧ writeBytes c5_stream [1] = (some 1, { c5_stream with m_writeBuffer := [1] })
    ∧ streamClose { c5_stream with m_writeBuffer := [1] } c5_provider1.entries
        = (true, c5_closed_stream, c5_provider1.entries ++ [mkWriteEntry ("d/f".toList) [1]])
    ∧ c5_provider1.m_cachedDirectoriesList ≠ []
    ∧ (enumerateFoldersRecursive
        { c5_provider1 with entries := c5_provider1.entries ++ [mkWriteEntry ("d/f".toList) [1]] }
        []).1 = [("x/".toList)]
    ∧ (enumerateFoldersRecursive
        { c5_provider1 with entries := c5_provider1.entries ++ [mkWriteEntry ("d/f".toList) [1]],
                            m_cachedDirectoriesList := [] } []).1
        = ["d/".toList, "x/".toList] := by
  decide

/-- Claim C5 (amended): every successful writeFullFile clears the cached
directory list, so a folder enumeration after it rebuilds the cache from the
mutated entry set; the close of a write stream obtained from
openBinaryStream, by contrast, mutates the entry set without invalidating the
facade's cache (see the counterexample). -/
theorem c5_writeFullFile_clears_cache (z z' : WzMapZipIOProvider) (filename : List Char)
    (fileData : List Nat) (hw : writeFullFile z filename fileData = (true, z')) :
    z'.m_cachedDirectoriesList = [] := by
  by_cases hf : filename = []
  · simp [writeFullFile, openForWriting, hf] at hw
  · simp only [writeFullFile, openForWriting, hf, if_false, writeBytes] at hw
    simp at hw
    obtain ⟨-, rfl⟩ := hw
    rfl

/-- Claim C5 (witness): the concrete writeFullFile of one byte under "f" on
the archive holding x/y.txt leaves an empty directory cache. -/
theorem c5_writeFullFile_clears_cache_witness :
    c5_written_provider.m_cachedDirectoriesList = [] :=
  c5_writeFullFile_clears_cache c5_provider0 c5_written_provider ("f".toList) [1] (by decide)

/-- Claim C6 (counterexample): openBinaryStream in WRITE mode with the empty
filename returns a null stream, so the claim's "for every filename ...
returns a non-null write stream unconditionally" fails at the empty name. -/
theorem c6_empty_filename_counterexample :
    (openBinaryStream c6_provider [] OpenMode.WRITE).1 = none := by
  decide

/-- Claim C6 (amended): for every non-empty filename and every open provider,
openBinaryStream in WRITE mode returns a non-null fresh write stream for that
filename — whether an entry with that name exists is irrelevant, and
overwrite happens implicitly at close — leaving the provider state
unchanged. -/
theorem c6_open_write_nonempty (z : WzMapZipIOProvider) (filename : List Char)
    (hname : filename ≠ []) :
    openBinaryStream z filename OpenMode.WRITE =
      (some { m_mode := OpenMode.WRITE, m_pReadHandle := none, m_extraByteRead := none,
              m_filename := filename, m_writeBuffer := [], m_fixedLastMod := z.m_fixedLastMod },
       z) := by
  simp [openBinaryStream, openForWriting, hname]

/-- Claim C6 (witness): the amended statement at the concrete empty archive
and the name "f". -/
theorem c6_open_write_nonempty_witness :
    openBinaryStream c6_provider ("f".toList) OpenMode.WRITE =
      (some { m_mode := OpenMode.WRITE, m_pReadHandle := none, m_extraByteRead := none,
              m_filename := "f".toList, m_writeBuffer := [],
              m_fixedLastMod := c6_provider.m_fixedLastMod },
       c6_provider) :=
  c6_open_write_nonempty c6_provider ("f".toList) (by decide)

/-- Claim C7: on an archive whose entries are exactly a/b/c.txt,
enumerateFolders("a/") yields exactly "b/", enumerateFoldersRecursive("a/")
also yields exactly "b/", enumerateFilesRecursive("a/") yields exactly
"b/c.txt", and non-recursive enumerateFiles("a/") yields nothing. -/
theorem c7_enumeration_example :
    (enumerateFolders c7_provider ("a/".toList)).1 = ["b/".toList]
    ∧ (enumerateFoldersRecursive c7_provider ("a/".toList)).1 = ["b/".toList]
    ∧ (enumerateFilesRecursive c7_provider ("a/".toList)).1 = ["b/c.txt".toList]
    ∧ (enumerateFiles c7_provider ("a/".toList)).1 = [] := by
  decide

/-- Claim C8: every lookup-by-name tries the literal name first (a literal
hit is returned as-is under either flag value); when the literal lookup
fails, the lookup is retried with every forward slash replaced by a backslash
exactly when the archive is classified as exhibiting the malformed-separator
quirk (flag true), and fails without retry otherwise; and on an archive whose
DOS-origin entry is literally stored as "dir\file.txt", fileExists with
"dir/file.txt" returns true. -/
theorem c8_name_locate_workaround :
    (∀ (entries : List ZipEntry) (fname : List Char) (flag : Bool) (i : Nat),
        zip_name_locate entries fname = some i →
          wz_zip_name_locate_impl entries fname flag = some i)
    ∧ (∀ (entries : List ZipEntry) (fname : List Char),
        zip_name_locate entries fname = none →
          wz_zip_name_locate_impl entries fname true
            = zip_name_locate entries (replaceChar fname '/' '\\'))
    ∧ (∀ (entries : List ZipEntry) (fname : List Char),
        zip_name_locate entries fname = none →
          wz_zip_name_locate_impl entries fname false = none)
    ∧ (fileExists c8_provider ("dir/file.txt".toList)).1 = true := by
  refine ⟨?_, ?_, ?_, ?_⟩
  · intro entries fname flag i hi
    simp [wz_zip_name_locate_impl, hi]
  · intro entries fname hn
    simp [wz_zip_name_locate_impl, hn]
  · intro entries fname hn
    simp [wz_zip_name_locate_impl, hn]
  · decide

/-- Claim C8 (witness): the literal-first branch at a concrete archive — the
exact stored name "dir\file.txt" is found directly, with the workaround flag
off. -/
theorem c8_name_locate_workaround_witness :
    wz_zip_name_locate_impl [c8_entry] ("dir\\file.txt".toList) false = some 0 :=
  c8_name_locate_workaround.1 [c8_entry] ("dir\\file.txt".toList) false 0 (by decide)

/-- Claim C9 (counterexample): an entry with compression method 12 (neither
store nor deflate) whose size exceeds the call's cap makes loadFullFile
return FAILURE_EXCEEDS_MAXFILESIZE, not the FAILURE_OPEN the claim promises
for every entry with an unsupported method. -/
theorem c9_exceeds_precedence_counterexample :
    c9_entry.compMethodValid = true
    ∧ c9_entry.compMethod ≠ ZIP_CM_STORE
    ∧ c9_entry.compMethod ≠ ZIP_CM_DEFLATE
    ∧ (loadFullFile c9_provider ("a".toList) [] 2 false).1 ≠ LoadFullFileResult.FAILURE_OPEN := by
  decide

/-- Claim C9 (amended): a located entry whose stat reports a compression
method other than store or deflate is rejected before any data is read, for
every such method and regardless of backend support: openBinaryStream in
READ mode returns a null stream, and loadFullFile leaves the caller's buffer
untouched and returns FAILURE_OPEN — unless the entry's stated size also
exceeds the effective cap, in which case the size check runs first and
FAILURE_EXCEEDS_MAXFILESIZE is returned instead. -/
theorem c9_unsupported_method_rejected (z z' : WzMapZipIOProvider) (flag : Bool)
    (name : List Char) (idx : Nat) (st : ZipEntry)
    (hflag : malformedWorkaroundFlag z = (flag, z'))
    (hloc : wz_zip_name_locate_impl z'.entries name flag = some idx)
    (hst : z'.entries[idx]? = some st)
    (hcm : st.compMethodValid = true)
    (hcm0 : st.compMethod ≠ ZIP_CM_STORE)
    (hcm8 : st.compMethod ≠ ZIP_CM_DEFLATE) :
    openBinaryStream z name OpenMode.READ = (none, z')
    ∧ ∀ (fileData : List Nat) (maxFileSize : Nat) (appendNull : Bool),
        loadFullFile z name fileData maxFileSize appendNull =
          ((if st.sizeValid = true ∧
              (if maxFileSize ≠ 0 then maxFileSize else WzMapZipDefaultEmbeddedFileMaxFileSize)
                < st.data.length
            then LoadFullFileResult.FAILURE_EXCEEDS_MAXFILESIZE
            else LoadFullFileResult.FAILURE_OPEN), fileData, z') := by
  constructor
  · simp only [openBinaryStream, hflag, hloc, hst, wzMapZipIOSanityCheckStat]
    split_ifs with h1 h2 <;> simp_all
  · intro fileData maxFileSize appendNull
    by_cases hsv : st.sizeValid = true
    · by_cases hsz : (if maxFileSize = 0 then WzMapZipDefaultEmbeddedFileMaxFileSize else maxFileSize)
          < st.data.length
      · have hgoal : (if st.sizeValid = true ∧
            (if maxFileSize ≠ 0 then maxFileSize else WzMapZipDefaultEmbeddedFileMaxFileSize)
              < st.data.length
            then LoadFullFileResult.FAILURE_EXCEEDS_MAXFILESIZE
            else LoadFullFileResult.FAILURE_OPEN) = LoadFullFileResult.FAILURE_EXCEEDS_MAXFILESIZE := by
          rcases eq_or_ne maxFileSize 0 with h0 | h0 <;> simp_all
        rw [hgoal]
        simp only [loadFullFile, hflag, hloc, hst, hsv, wzMapZipIOSanityCheckStat]
        simp [hsz]
      · have hgoal : (if st.sizeValid = true ∧
            (if maxFileSize ≠ 0 then maxFileSize else WzMapZipDefaultEmbeddedFileMaxFileSize)
              < st.data.length
            then LoadFullFileResult.FAILURE_EXCEEDS_MAXFILESIZE
            else LoadFullFileResult.FAILURE_OPEN) = LoadFullFileResult.FAILURE_OPEN := by
          rcases eq_or_ne maxFileSize 0 with h0 | h0 <;> simp_all
        rw [hgoal]
        simp only [loadFullFile, hflag, hloc, hst, hsv, wzMapZipIOSanityCheckStat]
        simp [hsz, hcm, hcm0, hcm8]
    · simp only [loadFullFile, hflag, hloc, hst, hsv, wzMapZipIOSanityCheckStat]
      simp [hsv]

/-- Claim C9 (witness): the amended statement's read-stream half at the
concrete archive holding an entry with compression method 12. -/
theorem c9_unsupported_method_rejected_witness :
    openBinaryStream c9_provider ("a".toList) OpenMode.READ = (none, c9_provider) :=
  (c9_unsupported_method_rejected c9_provider c9_provider false ("a".toList) 0 c9_entry
    (by decide) (by decide) (by decide) (by decide) (by decide) (by decide)).1

/-- Claim C10: on a read stream whose backend read fails hard, a readBytes
call with len at least 1 still returns 1 when a cached lookahead byte is
pending — the cached byte is delivered into the buffer and the hard failure
is not reported as "no value" on that call; "no value" is returned on a hard
failure exactly when no lookahead byte is pending. -/
theorem c10_cached_byte_on_failure (s : WzMapBinaryZipIOStream) (h : ZipReadHandle)
    (hh : s.m_pReadHandle = some h) (herr : h.readError = true) :
    (∀ b, s.m_extraByteRead = some b → ∀ len, 1 ≤ len →
        readBytes s len = (some 1, [b], { s with m_extraByteRead := none }))
    ∧ (s.m_extraByteRead = none → ∀ len, readBytes s len = (none, [], s)) := by
  cases s with
  | mk mode rh extra fn wb fm =>
    simp only at hh
    subst hh
    constructor
    · intro b hb len hlen
      simp only at hb
      subst hb
      simp [readBytes, zip_fread, herr]
    · intro hb
      simp only at hb
      subst hb
      simp [readBytes, zip_fread, herr]

/-- Claim C10 (witness): the cached byte 7 is delivered with count 1 on a
concrete failing stream, for a three-byte read request. -/
theorem c10_cached_byte_on_failure_witness :
    readBytes c10_stream 3 = (some 1, [7], { c10_stream with m_extraByteRead := none }) :=
  (c10_cached_byte_on_failure c10_stream c10_handle rfl rfl).1 7 rfl 3 (by decide)
